import Mathlib

/-!
Verification development for the supabase-mcp-lite repository.

The repository contains several near-duplicate variants of a small MCP server:

* `src/index.ts`, first part (token variant): a credential resolver
  `getProjectKeys` with a process-wide `projectKeyCache`, a URL parser
  `extractProjectId`, and four tools (`select`, `mutate`, `storage`, `auth`)
  that each resolve the project's service-role key before their single
  upstream call.
* `src/index.ts`, second and third parts (static-key variants): the same four
  tools bound to a statically configured client, with a degraded no-op mode
  when the configuration is missing.
* `unnamed/part_000` and `unnamed/part_001` (token tool variants): tools
  `get_access_key` / `check_access_key` that print the configured access
  token, plus project/table listing and a raw SQL tool `excute_query`.
* `unnamed/part_001`, second part (SQL static variant): a `query` tool with an
  RPC path and a fallback path, the fallback reshaping large array results.

Stateful code (the key cache) is embedded by threading the cache explicitly;
network calls are embedded by passing the upstream response as a parameter and
recording in the result which calls were issued.  Strings are handled as
`String` or as `List Char` where character-level reasoning is needed.
-/

set_option maxRecDepth 4000

namespace SupabaseMcpLite

/-- Entry of the key list returned by the key-issuance endpoint
`GET https://api.supabase.com/v1/projects/{ref}/api-keys`: `{ name, api_key }`. -/
structure ApiKeyEntry where
  name : String
  api_key : String
deriving DecidableEq, Repr

/-- Value cached per project by `src/index.ts` line 45:
`{ serviceRoleKey, anonKey }`.  `anonKey` comes from
`keys.find(k => k.name === 'anon')?.api_key` and may be absent, hence `Option`. -/
structure ProjectKeyPair where
  serviceRoleKey : String
  anonKey : Option String
deriving DecidableEq, Repr

/-- Process-wide `projectKeyCache` (src/index.ts line 11), modelled as an
association list threaded explicitly through calls. -/
abbrev KeyCache := List (String × ProjectKeyPair)

/-- Read `projectKeyCache[projectId]`. -/
def cacheLookup (cache : KeyCache) (projectId : String) : Option ProjectKeyPair :=
  (cache.find? (fun e => e.1 == projectId)).map (fun e => e.2)

/-- Assignment `projectKeyCache[projectId] = pair`. -/
def cacheInsert (cache : KeyCache) (projectId : String) (pair : ProjectKeyPair) : KeyCache :=
  (projectId, pair) :: cache

/-- Outcome of the `fetch` to the key-issuance endpoint as `getProjectKeys`
observes it: either a non-ok HTTP response (`response.status` and
`response.statusText`) or a parsed JSON key list. -/
inductive UpstreamResp where
  | httpError (status : Nat) (statusText : String)
  | ok (keys : List ApiKeyEntry)
deriving DecidableEq, Repr

/-- Errors thrown by `getProjectKeys` (src/index.ts lines 31 and 41). -/
inductive ResolveError where
  | upstreamError (status : Nat) (statusText : String)
  | missingServiceRoleKey
deriving DecidableEq, Repr

/-- Selection `keys.find(k => k.name === 'service_role')?.api_key`
(src/index.ts line 37). -/
def serviceRoleOf (keys : List ApiKeyEntry) : Option String :=
  (keys.find? (fun k => k.name == "service_role")).map (fun k => k.api_key)

/-- Selection `keys.find(k => k.name === 'anon')?.api_key`
(src/index.ts line 38). -/
def anonOf (keys : List ApiKeyEntry) : Option String :=
  (keys.find? (fun k => k.name == "anon")).map (fun k => k.api_key)

instance {ε α : Type} [DecidableEq ε] [DecidableEq α] : DecidableEq (Except ε α) := fun a b =>
  match a, b with
  | .error e1, .error e2 =>
    if h : e1 = e2 then .isTrue (by rw [h]) else .isFalse (by intro hc; cases hc; exact h rfl)
  | .error _, .ok _ => .isFalse (by intro hc; cases hc)
  | .ok _, .error _ => .isFalse (by intro hc; cases hc)
  | .ok a1, .ok a2 =>
    if h : a1 = a2 then .isTrue (by rw [h]) else .isFalse (by intro hc; cases hc; exact h rfl)

/-- Observable outcome of one call to `getProjectKeys`: the returned pair or
thrown error, the cache after the call, and whether a network fetch was
issued. -/
structure ResolveResult where
  result : Except ResolveError ProjectKeyPair
  cache : KeyCache
  fetched : Bool
deriving DecidableEq, Repr

/-- Embedding of `getProjectKeys(projectId, accessToken)`, src/index.ts lines
13-53.  Cache hit returns the cached pair with no fetch; otherwise one fetch is
issued: a non-ok response throws before caching, a key list without a
`service_role` entry throws before caching, and otherwise the pair is cached
and returned.  The upstream response for the given project is a parameter. -/
def getProjectKeys (cache : KeyCache) (projectId : String) (resp : UpstreamResp) :
    ResolveResult :=
  match cacheLookup cache projectId with
  | some pair => ⟨.ok pair, cache, false⟩
  | none =>
    match resp with
    | .httpError status statusText => ⟨.error (.upstreamError status statusText), cache, true⟩
    | .ok keys =>
      match serviceRoleOf keys with
      | none => ⟨.error .missingServiceRoleKey, cache, true⟩
      | some srk =>
        let pair : ProjectKeyPair := ⟨srk, anonOf keys⟩
        ⟨.ok pair, cacheInsert cache projectId pair, true⟩

/-- Two successive resolutions of the same project with the same credential:
`upstream` gives, per project reference, the (fixed) response the key-issuance
endpoint would return for that credential. -/
def resolveTwice (cache : KeyCache) (projectId : String)
    (upstream : String → UpstreamResp) : ResolveResult × ResolveResult :=
  let r1 := getProjectKeys cache projectId (upstream projectId)
  let r2 := getProjectKeys r1.cache projectId (upstream projectId)
  (r1, r2)

/-- Number of upstream key-issuance fetches a call performed (0 or 1). -/
def fetchCount (r : ResolveResult) : Nat := if r.fetched then 1 else 0

/-! URL parsing, `extractProjectId` (src/index.ts lines 56-62).

The source matches the unanchored JS regex `https:\/\/([^.]+)\.supabase\.co`.
The capture group `[^.]+` cannot contain a dot and the literal that follows it
starts with one, so at a given start position only the maximal run of non-dot
characters can be followed by the literal; greedy matching with backtracking
therefore reduces to taking that maximal run. -/

/-- Characters of the literal `https://` in the regex. -/
def httpsChars : List Char := "https://".data

/-- Characters of the literal `.supabase.co` in the regex. -/
def dotSupabaseChars : List Char := ".supabase.co".data

/-- Character class `[^.]` of the capture group. -/
def nonDot (c : Char) : Bool := c ≠ '.'

/-- Regex match attempt anchored at the current position: the literal
`https://`, then the capture group `[^.]+`, then `.supabase.co`; returns the
capture group. -/
def matchAt (s : List Char) : Option (List Char) :=
  if httpsChars.isPrefixOf s then
    let rest := s.drop httpsChars.length
    let run := rest.takeWhile nonDot
    if run ≠ [] ∧ dotSupabaseChars.isPrefixOf (rest.drop run.length) then some run
    else none
  else none

/-- Unanchored search of JS `String.prototype.match`: try the pattern at each
successive start position and return the leftmost match's capture group. -/
def scanMatch : List Char → Option (List Char)
  | [] => none
  | c :: t =>
    match matchAt (c :: t) with
    | some r => some r
    | none => scanMatch t

/-- Embedding of `extractProjectId(projectUrl)`, src/index.ts lines 56-62:
return the regex capture group, or throw `Invalid Supabase project URL`. -/
def extractProjectId (projectUrl : String) : Except String String :=
  match scanMatch projectUrl.data with
  | some r => .ok (String.mk r)
  | none => .error "Invalid Supabase project URL"

/-- Statement written from the spec sentence, independent of the code: the
input contains a substring `https://<id>.supabase.co` with `<id>` nonempty and
dot-free. -/
def specHasProjectUrl (s : List Char) : Prop :=
  ∃ pre pid suf, s = pre ++ httpsChars ++ pid ++ dotSupabaseChars ++ suf ∧
    pid ≠ [] ∧ ∀ c ∈ pid, c ≠ '.'

/-! Key selection of the `get_access_key` handler, unnamed/part_000 lines
22-44.  The handler fetches the same key-issuance endpoint and then reads the
parsed list positionally: `data[0].api_key` is printed as the anon key and
`data[1].api_key` as the service role key.  A list with fewer than two entries
makes the JS crash on a property of `undefined`, modelled as `none`. -/

/-- Pair `(data[0].api_key, data[1].api_key)` printed by `get_access_key` as
(anon key, service role key). -/
def get_access_key_selected (data : List ApiKeyEntry) : Option (String × String) :=
  match data with
  | k0 :: k1 :: _ => some (k0.api_key, k1.api_key)
  | _ => none

/-! Lemmas about the resolver. -/

theorem cacheLookup_cacheInsert (cache : KeyCache) (projectId : String)
    (pair : ProjectKeyPair) :
    cacheLookup (cacheInsert cache projectId pair) projectId = some pair := by
  simp [cacheLookup, cacheInsert]

theorem getProjectKeys_hit (cache : KeyCache) (projectId : String)
    (resp : UpstreamResp) (pair : ProjectKeyPair)
    (h : cacheLookup cache projectId = some pair) :
    getProjectKeys cache projectId resp = ⟨.ok pair, cache, false⟩ := by
  simp [getProjectKeys, h]

theorem getProjectKeys_ok_cache (cache : KeyCache) (projectId : String)
    (resp : UpstreamResp) (p : ProjectKeyPair)
    (h : (getProjectKeys cache projectId resp).result = .ok p) :
    cacheLookup (getProjectKeys cache projectId resp).cache projectId = some p := by
  unfold getProjectKeys at h ⊢
  cases hcl : cacheLookup cache projectId with
  | some q =>
    simp only [hcl] at h ⊢
    cases h
    rfl
  | none =>
    cases resp with
    | httpError st txt => simp [hcl] at h
    | ok keys =>
      cases hsr : serviceRoleOf keys with
      | none => simp [hcl, hsr] at h
      | some srk =>
        simp only [hcl, hsr] at h ⊢
        cases h
        exact cacheLookup_cacheInsert cache projectId _

theorem getProjectKeys_fetched_false_of_hit (cache : KeyCache) (projectId : String)
    (resp : UpstreamResp) (pair : ProjectKeyPair)
    (h : cacheLookup cache projectId = some pair) :
    (getProjectKeys cache projectId resp).fetched = false := by
  rw [getProjectKeys_hit cache projectId resp pair h]

/-- C1: resolving the same project reference twice with the same valid
credential performs at most one upstream key-issuance fetch; a cache hit
returns the cached pair with no network call, and the second resolution
returns a pair identical to the first. -/
theorem c1_resolve_twice_at_most_one_fetch (cache : KeyCache) (projectId : String)
    (upstream : String → UpstreamResp) (p : ProjectKeyPair)
    (h : (resolveTwice cache projectId upstream).1.result = .ok p) :
    (resolveTwice cache projectId upstream).2.result = .ok p ∧
    (resolveTwice cache projectId upstream).2.fetched = false ∧
    fetchCount (resolveTwice cache projectId upstream).1 +
      fetchCount (resolveTwice cache projectId upstream).2 ≤ 1 ∧
    ∀ q, cacheLookup cache projectId = some q →
      getProjectKeys cache projectId (upstream projectId) = ⟨.ok q, cache, false⟩ := by
  have h1 : (resolveTwice cache projectId upstream).1 =
      getProjectKeys cache projectId (upstream projectId) := rfl
  have h2 : (resolveTwice cache projectId upstream).2 =
      getProjectKeys (getProjectKeys cache projectId (upstream projectId)).cache
        projectId (upstream projectId) := rfl
  rw [h1] at h
  have hcache : cacheLookup (getProjectKeys cache projectId (upstream projectId)).cache
      projectId = some p := getProjectKeys_ok_cache _ _ _ _ h
  have hsecond := getProjectKeys_hit _ projectId (upstream projectId) p hcache
  refine ⟨by rw [h2, hsecond], by rw [h2, hsecond], ?_, ?_⟩
  · rw [h1, h2, hsecond]
    simp only [fetchCount]
    cases hf : (getProjectKeys cache projectId (upstream projectId)).fetched <;> simp
  · intro q hq
    exact getProjectKeys_hit cache projectId (upstream projectId) q hq

/-- C1 witness: a concrete run with an empty cache and a valid upstream
response; the first resolution fetches once and the second is a pure cache
hit returning the identical pair. -/
theorem c1_witness :
    (resolveTwice [] "abc" (fun _ => .ok [⟨"service_role", "SR"⟩, ⟨"anon", "AN"⟩])).2.result =
        .ok ⟨"SR", some "AN"⟩ ∧
    (resolveTwice [] "abc" (fun _ => .ok [⟨"service_role", "SR"⟩, ⟨"anon", "AN"⟩])).2.fetched =
        false := by
  have := c1_resolve_twice_at_most_one_fetch []
    "abc" (fun _ => .ok [⟨"service_role", "SR"⟩, ⟨"anon", "AN"⟩]) ⟨"SR", some "AN"⟩ (by decide)
  exact ⟨this.1, this.2.1⟩

/-- C5: whenever resolution fails — non-success status from the key-issuance
endpoint, or a key list with no `service_role` entry — `getProjectKeys` throws
the corresponding error and the cache is left exactly as it was. -/
theorem c5_failed_resolution_leaves_cache_unchanged (cache : KeyCache)
    (projectId : String) (resp : UpstreamResp) :
    (∀ e, (getProjectKeys cache projectId resp).result = .error e →
       (getProjectKeys cache projectId resp).cache = cache) ∧
    (∀ st txt, cacheLookup cache projectId = none → resp = .httpError st txt →
       (getProjectKeys cache projectId resp).result = .error (.upstreamError st txt)) ∧
    (∀ keys, cacheLookup cache projectId = none → resp = .ok keys →
       serviceRoleOf keys = none →
       (getProjectKeys cache projectId resp).result = .error .missingServiceRoleKey) := by
  refine ⟨?_, ?_, ?_⟩
  · intro e he
    unfold getProjectKeys at he ⊢
    cases hcl : cacheLookup cache projectId with
    | some q => simp [hcl] at he
    | none =>
      cases resp with
      | httpError st txt => simp [hcl]
      | ok keys =>
        cases hsr : serviceRoleOf keys with
        | none => simp [hcl, hsr]
        | some srk => simp [hcl, hsr] at he
  · intro st txt hcl hresp
    subst hresp
    simp [getProjectKeys, hcl]
  · intro keys hcl hresp hsr
    subst hresp
    simp [getProjectKeys, hcl, hsr]

/-- C5 witness: concrete failing resolutions (HTTP 500, and a key list lacking
`service_role`) leave a concrete nonempty cache untouched. -/
theorem c5_witness :
    (getProjectKeys [("xyz", ⟨"K", none⟩)] "abc" (.httpError 500 "Internal Server Error")).cache =
        [("xyz", ⟨"K", none⟩)] ∧
    (getProjectKeys [("xyz", ⟨"K", none⟩)] "abc" (.httpError 500 "Internal Server Error")).result =
        .error (.upstreamError 500 "Internal Server Error") ∧
    (getProjectKeys [("xyz", ⟨"K", none⟩)] "abc" (.ok [⟨"anon", "AN"⟩])).result =
        .error .missingServiceRoleKey := by
  refine ⟨?_, ?_, ?_⟩
  · exact (c5_failed_resolution_leaves_cache_unchanged [("xyz", ⟨"K", none⟩)] "abc"
      (.httpError 500 "Internal Server Error")).1 (.upstreamError 500 "Internal Server Error")
      (by decide)
  · exact (c5_failed_resolution_leaves_cache_unchanged [("xyz", ⟨"K", none⟩)] "abc"
      (.httpError 500 "Internal Server Error")).2.1 500 "Internal Server Error"
      (by decide) rfl
  · exact (c5_failed_resolution_leaves_cache_unchanged [("xyz", ⟨"K", none⟩)] "abc"
      (.ok [⟨"anon", "AN"⟩])).2.2 [⟨"anon", "AN"⟩] (by decide) rfl (by decide)

example : extractProjectId "https://abc.supabase.co" = .ok "abc" := rfl

example : extractProjectId "https://abc123.example.co" =
    .error "Invalid Supabase project URL" := rfl

example : extractProjectId "xhttps://abc.supabase.co/rest" = .ok "abc" := rfl

example : extractProjectId "https://a.b.supabase.co" =
    .error "Invalid Supabase project URL" := rfl

/-! Lemmas about `find?` by key name, shared by the resolver claims. -/

theorem findName_unique {n : String} {l : List ApiKeyEntry} {e : ApiKeyEntry}
    (he : e ∈ l) (hn : e.name = n) (hu : ∀ x ∈ l, x.name = n → x = e) :
    l.find? (fun k => k.name == n) = some e := by
  induction l with
  | nil => cases he
  | cons a t ih =>
    by_cases ha : a.name = n
    · have hae : a = e := hu a (List.mem_cons_self a t) ha
      subst hae
      simp [List.find?_cons, ha]
    · have hpa : (a.name == n) = false := by
        simp only [beq_eq_false_iff_ne, ne_eq]
        exact ha
      rw [List.find?_cons, hpa]
      have het : e ∈ t := by
        cases List.mem_cons.mp he with
        | inl h => exact absurd (h ▸ hn) ha
        | inr h => exact h
      exact ih het (fun x hx hxn => hu x (List.mem_cons_of_mem a hx) hxn)

theorem findName_perm {n : String} {l1 l2 : List ApiKeyEntry} (hp : l1.Perm l2)
    (hu : ∀ x ∈ l1, ∀ y ∈ l1, x.name = n → y.name = n → x = y) :
    l1.find? (fun k => k.name == n) = l2.find? (fun k => k.name == n) := by
  cases hf : l1.find? (fun k => k.name == n) with
  | none =>
    have hnone : ∀ x ∈ l1, ¬ ((x.name == n) = true) := by
      intro x hx
      exact List.find?_eq_none.mp hf x hx
    have : l2.find? (fun k => k.name == n) = none := by
      refine List.find?_eq_none.mpr ?_
      intro x hx
      exact hnone x (hp.mem_iff.mpr hx)
    rw [this]
  | some e =>
    have he1 : e ∈ l1 := List.mem_of_find?_eq_some hf
    have hpe := List.find?_some hf
    have hen : e.name = n := eq_of_beq hpe
    have he2 : e ∈ l2 := hp.mem_iff.mp he1
    have hu2 : ∀ x ∈ l2, x.name = n → x = e := fun x hx hxn =>
      hu x (hp.mem_iff.mpr hx) e he1 hxn hen
    rw [findName_unique he2 hen hu2]

/-- C7 counterexample: on the key list `[service_role, anon]` the
`get_access_key` handler of unnamed/part_000 prints `data[1].api_key` — the
`anon` entry's key — in its `project service role key` slot, which differs
from selection by the `name` field as the claim states it. -/
theorem c7_get_access_key_positional :
    (get_access_key_selected
        [⟨"service_role", "SR-KEY"⟩, ⟨"anon", "ANON-KEY"⟩]).map Prod.snd =
      some "ANON-KEY" ∧
    serviceRoleOf [⟨"service_role", "SR-KEY"⟩, ⟨"anon", "ANON-KEY"⟩] = some "SR-KEY" ∧
    (get_access_key_selected
        [⟨"service_role", "SR-KEY"⟩, ⟨"anon", "ANON-KEY"⟩]).map Prod.snd ≠
      serviceRoleOf [⟨"service_role", "SR-KEY"⟩, ⟨"anon", "ANON-KEY"⟩] := by
  refine ⟨rfl, by decide, by decide⟩

/-- C7 amended: `getProjectKeys` (src/index.ts lines 37-38) selects the
service-role and anon keys by the `name` field, independent of the order of
entries (given the entry with the sought name is unique); the `get_access_key`
handler of unnamed/part_000 instead reads entries positionally. -/
theorem c7_name_based_selection_order_independent :
    (∀ (l : List ApiKeyEntry) (e : ApiKeyEntry),
        e ∈ l → e.name = "service_role" →
        (∀ x ∈ l, x.name = "service_role" → x = e) →
        serviceRoleOf l = some e.api_key) ∧
    (∀ (l : List ApiKeyEntry) (e : ApiKeyEntry),
        e ∈ l → e.name = "anon" →
        (∀ x ∈ l, x.name = "anon" → x = e) →
        anonOf l = some e.api_key) ∧
    (∀ (l1 l2 : List ApiKeyEntry), l1.Perm l2 →
        (∀ x ∈ l1, ∀ y ∈ l1, x.name = "service_role" → y.name = "service_role" → x = y) →
        serviceRoleOf l1 = serviceRoleOf l2) ∧
    (∀ (l1 l2 : List ApiKeyEntry), l1.Perm l2 →
        (∀ x ∈ l1, ∀ y ∈ l1, x.name = "anon" → y.name = "anon" → x = y) →
        anonOf l1 = anonOf l2) := by
  refine ⟨?_, ?_, ?_, ?_⟩
  · intro l e he hn hu
    simp [serviceRoleOf, findName_unique he hn hu]
  · intro l e he hn hu
    simp [anonOf, findName_unique he hn hu]
  · intro l1 l2 hp hu
    simp [serviceRoleOf, findName_perm hp hu]
  · intro l1 l2 hp hu
    simp [anonOf, findName_perm hp hu]

/-- C7 witness: with the `service_role` entry listed second, name-based
selection still returns its key. -/
theorem c7_witness :
    serviceRoleOf [⟨"anon", "AN"⟩, ⟨"service_role", "SR"⟩] = some "SR" :=
  c7_name_based_selection_order_independent.1
    [⟨"anon", "AN"⟩, ⟨"service_role", "SR"⟩] ⟨"service_role", "SR"⟩
    (by decide) rfl (by decide)

/-! Characterization of the URL matcher. -/

theorem drop_takeWhile_length (p : Char → Bool) (l : List Char) :
    l.drop (l.takeWhile p).length = l.dropWhile p := by
  induction l with
  | nil => rfl
  | cons a t ih =>
    cases hpa : p a
    · simp [List.takeWhile_cons, List.dropWhile_cons, hpa]
    · simp [List.takeWhile_cons, List.dropWhile_cons, hpa, ih]

theorem takeWhile_append_all {p : Char → Bool} {l1 l2 : List Char}
    (h : ∀ c ∈ l1, p c = true) :
    (l1 ++ l2).takeWhile p = l1 ++ l2.takeWhile p := by
  induction l1 with
  | nil => simp
  | cons a t ih =>
    simp only [List.cons_append, List.takeWhile_cons]
    rw [h a (List.mem_cons_self a t)]
    simp [ih fun c hc => h c (List.mem_cons_of_mem a hc)]

theorem matchAt_eq_some {s r : List Char} :
    matchAt s = some r ↔
      ∃ suf, s = httpsChars ++ (r ++ (dotSupabaseChars ++ suf)) ∧ r ≠ [] ∧
        ∀ c ∈ r, c ≠ '.' := by
  constructor
  · intro h
    unfold matchAt at h
    split at h
    next hpre =>
      dsimp only at h
      split at h
      next hcond =>
        obtain ⟨hne, hdot⟩ := hcond
        obtain ⟨t, ht⟩ := List.isPrefixOf_iff_prefix.mp hpre
        have hdrop : s.drop httpsChars.length = t := by
          rw [← ht]
          exact List.drop_left _ _
        rw [hdrop] at h hne hdot
        rw [drop_takeWhile_length] at hdot
        obtain ⟨suf, hsuf⟩ := List.isPrefixOf_iff_prefix.mp hdot
        injection h with hr
        refine ⟨suf, ?_, ?_, ?_⟩
        · rw [← ht, ← hr, hsuf, List.takeWhile_append_dropWhile nonDot t]
        · rw [← hr]
          exact hne
        · intro c hc
          rw [← hr] at hc
          have := List.mem_takeWhile_imp hc
          exact of_decide_eq_true this
      next => cases h
    next => cases h
  · rintro ⟨suf, hs, hne, hnd⟩
    subst hs
    have hall : ∀ c ∈ r, nonDot c = true := by
      intro c hc
      exact decide_eq_true (hnd c hc)
    have hpre : httpsChars.isPrefixOf
        (httpsChars ++ (r ++ (dotSupabaseChars ++ suf))) = true :=
      List.isPrefixOf_iff_prefix.mpr ⟨_, rfl⟩
    unfold matchAt
    rw [if_pos hpre, List.drop_left]
    dsimp only
    have hdotHead : dotSupabaseChars = '.' :: "supabase.co".data := rfl
    have hrun : (r ++ (dotSupabaseChars ++ suf)).takeWhile nonDot = r := by
      rw [takeWhile_append_all hall, hdotHead]
      simp [List.takeWhile_cons, nonDot]
    rw [hrun]
    have hdrop : (r ++ (dotSupabaseChars ++ suf)).drop r.length =
        dotSupabaseChars ++ suf := List.drop_left _ _
    rw [hdrop]
    rw [if_pos ⟨hne, List.isPrefixOf_iff_prefix.mpr ⟨suf, rfl⟩⟩]

theorem matchAt_nil : matchAt [] = none := rfl

theorem scanMatch_of_matchAt {s r : List Char} (h : matchAt s = some r) :
    scanMatch s = some r := by
  cases s with
  | nil => cases matchAt_nil ▸ h
  | cons c t =>
    unfold scanMatch
    rw [h]

theorem scanMatch_isSome_iff {s : List Char} :
    (∃ r, scanMatch s = some r) ↔ specHasProjectUrl s := by
  constructor
  · intro h
    induction s with
    | nil =>
      obtain ⟨r, hr⟩ := h
      cases hr
    | cons c t ih =>
      obtain ⟨r, hr⟩ := h
      unfold scanMatch at hr
      cases hm : matchAt (c :: t) with
      | some r0 =>
        obtain ⟨suf, hs, hne, hnd⟩ := matchAt_eq_some.mp hm
        exact ⟨[], r0, suf, by simpa [List.append_assoc] using hs, hne, hnd⟩
      | none =>
        rw [hm] at hr
        obtain ⟨pre, pid, suf, hts, hne, hnd⟩ := ih ⟨r, hr⟩
        exact ⟨c :: pre, pid, suf, by simp [hts, List.append_assoc], hne, hnd⟩
  · rintro ⟨pre, pid, suf, hs, hne, hnd⟩
    subst hs
    induction pre with
    | nil =>
      refine ⟨pid, ?_⟩
      simp only [List.nil_append]
      apply scanMatch_of_matchAt
      refine matchAt_eq_some.mpr ⟨suf, by simp [List.append_assoc], hne, hnd⟩
    | cons c pre2 ih =>
      obtain ⟨r, hr⟩ := ih
      simp only [List.cons_append]
      cases hm : matchAt (c :: (pre2 ++ httpsChars ++ pid ++ dotSupabaseChars ++ suf)) with
      | some r0 =>
        refine ⟨r0, ?_⟩
        unfold scanMatch
        rw [hm]
      | none =>
        refine ⟨r, ?_⟩
        unfold scanMatch
        rw [hm]
        exact hr

/-- C2 counterexample: the claim's pattern `https://<id>.<host>` is not what
the code matches.  On `https://abc123.example.co` (a valid project URL by the
claim's pattern, and the URL of the spec's own end-to-end scenario) extraction
throws instead of returning `abc123`; and on `xhttps://abc.supabase.co`, which
does not have the claimed shape, extraction succeeds because the regex is
unanchored. -/
theorem c2_extract_counterexample :
    extractProjectId "https://abc123.example.co" = .error "Invalid Supabase project URL" ∧
    extractProjectId "https://abc123.example.co" ≠ .ok "abc123" ∧
    extractProjectId "xhttps://abc.supabase.co" = .ok "abc" := by
  refine ⟨rfl, by decide, rfl⟩

/-- C2 amended: extraction succeeds exactly on strings containing a substring
`https://<id>.supabase.co` with `<id>` nonempty and dot-free (the host is
fixed to `supabase.co` and the regex is unanchored); in particular, on a
string that is exactly `https://<id>.supabase.co` it returns `<id>`; every
other input fails with `Invalid Supabase project URL`. -/
theorem c2_extract_characterization :
    (∀ pid : List Char, pid ≠ [] → (∀ c ∈ pid, c ≠ '.') →
        extractProjectId (String.mk (httpsChars ++ pid ++ dotSupabaseChars)) =
          .ok (String.mk pid)) ∧
    (∀ url : String, (∃ r, extractProjectId url = .ok r) ↔ specHasProjectUrl url.data) ∧
    (∀ url : String, ¬ specHasProjectUrl url.data →
        extractProjectId url = .error "Invalid Supabase project URL") := by
  have hok : ∀ url : String, (∃ r, extractProjectId url = .ok r) ↔
      specHasProjectUrl url.data := by
    intro url
    constructor
    · intro h
      obtain ⟨r, hr⟩ := h
      unfold extractProjectId at hr
      cases hscan : scanMatch url.data with
      | some r0 => exact scanMatch_isSome_iff.mp ⟨r0, hscan⟩
      | none =>
        rw [hscan] at hr
        cases hr
    · intro h
      obtain ⟨r0, hscan⟩ := scanMatch_isSome_iff.mpr h
      exact ⟨String.mk r0, by unfold extractProjectId; rw [hscan]⟩
  refine ⟨?_, hok, ?_⟩
  · intro pid hne hnd
    have hm : matchAt (httpsChars ++ pid ++ dotSupabaseChars) = some pid := by
      refine matchAt_eq_some.mpr ⟨[], by simp [List.append_assoc], hne, hnd⟩
    have hscan : scanMatch (httpsChars ++ pid ++ dotSupabaseChars) = some pid :=
      scanMatch_of_matchAt hm
    unfold extractProjectId
    rw [show (String.mk (httpsChars ++ pid ++ dotSupabaseChars)).data =
      httpsChars ++ pid ++ dotSupabaseChars from rfl, hscan]
  · intro url h
    cases hscan : scanMatch url.data with
    | some r0 => exact absurd (scanMatch_isSome_iff.mp ⟨r0, hscan⟩) h
    | none =>
      unfold extractProjectId
      rw [hscan]

/-- C2 witness: extraction at the concrete exactly-shaped URL
`https://abc.supabase.co` returns `abc`. -/
theorem c2_witness :
    extractProjectId (String.mk (httpsChars ++ "abc".data ++ dotSupabaseChars)) =
      .ok (String.mk "abc".data) :=
  c2_extract_characterization.1 "abc".data (by decide) (by decide)

/-! Tool dispatcher of the token variant (src/index.ts lines 90-669).

Argument bags are JSON values; a minimal value type suffices for the
equality-filter and payload positions the handlers touch. -/

/-- Scalar JSON value used in `where` filters and `data` payloads. -/
inductive JsonLite where
  | str (s : String)
  | num (n : Int)
  | boolean (b : Bool)
  | null
deriving DecidableEq, Repr

/-- JS truthiness of an optional argument value, as tested by `if (!data)`:
absent, `null`, `0`, the empty string and `false` are all falsy. -/
def jsFalsy : Option JsonLite → Bool
  | none => true
  | some .null => true
  | some (.num n) => n == 0
  | some (.str s) => s.data.isEmpty
  | some (.boolean b) => !b

/-- Upstream table row: field-name/value pairs. -/
abbrev Row := List (String × JsonLite)

/-- Conjunction of the `.eq(key, value)` filters the handler chains onto the
query, evaluated on one row. -/
def rowMatches (filters : List (String × JsonLite)) (row : Row) : Bool :=
  filters.all (fun kv => decide ((row.find? (fun f => f.1 == kv.1)).map Prod.snd = some kv.2))

/-- Message of the error thrown by `getProjectKeys`, as built at its throw
sites (src/index.ts lines 31 and 41). -/
def resolveErrorMessage : ResolveError → String
  | .upstreamError status statusText =>
      "Failed to fetch project keys: " ++ toString status ++ " " ++ statusText
  | .missingServiceRoleKey => "Service role key not found in project keys"

/-- Arguments of the token variant's `select` tool: `projectUrl`, `table`,
optional `where` (a record of equality filters; `where` is a Lean keyword,
hence `whereF`) and optional `limit`. -/
structure SelectArgs where
  projectUrl : String
  table : String
  whereF : List (String × JsonLite)
  limit : Option Nat
deriving DecidableEq, Repr

/-- Query the handler builds: `from(table).select('*')`, the chained `eq`
filters, and `limit` (the JS default parameter `limit = 100` applies only when
the argument is absent). -/
structure BuiltQuery where
  table : String
  eqFilters : List (String × JsonLite)
  limit : Nat
deriving DecidableEq, Repr

/-- Query construction of the select handler (src/index.ts lines 127-143). -/
def buildSelectQuery (args : SelectArgs) : BuiltQuery :=
  ⟨args.table, args.whereF, args.limit.getD 100⟩

/-- PostgREST semantics of the built query: rows of the table satisfying every
equality filter, capped at `limit` rows. -/
def postgrestEval (db : List Row) (q : BuiltQuery) : List Row :=
  (db.filter (rowMatches q.eqFilters)).take q.limit

/-- Response body `{ data, count }` of a successful select
(src/index.ts lines 162-170): `count` is `data.length`. -/
structure SelectResponse where
  data : List Row
  count : Nat
deriving DecidableEq, Repr

/-- Embedding of the token variant's select handler (src/index.ts lines
100-186): extract the project id, resolve keys (threading the cache), run the
built query against the upstream table `db`, and wrap errors with the
`Select failed:` prefix.  The string coercion of wrapped errors is collapsed
to the thrown message. -/
def selectToken (cache : KeyCache) (args : SelectArgs)
    (upstream : String → UpstreamResp) (db : List Row) :
    Except String SelectResponse × KeyCache :=
  match extractProjectId args.projectUrl with
  | .error msg => (.error ("Select failed: " ++ msg), cache)
  | .ok projectId =>
    let r := getProjectKeys cache projectId (upstream projectId)
    match r.result with
    | .error e => (.error ("Select failed: " ++ resolveErrorMessage e), r.cache)
    | .ok _ =>
      let rows := postgrestEval db (buildSelectQuery args)
      (.ok ⟨rows, rows.length⟩, r.cache)

/-- C4: every select call returns at most `limit` rows, where `limit`
defaults to 100 when omitted, regardless of how many matching rows the
upstream table holds; `count` equals the number of returned rows. -/
theorem c4_select_at_most_limit (cache : KeyCache) (args : SelectArgs)
    (upstream : String → UpstreamResp) (db : List Row) (resp : SelectResponse)
    (h : (selectToken cache args upstream db).1 = .ok resp) :
    resp.data.length ≤ args.limit.getD 100 ∧ resp.count = resp.data.length := by
  unfold selectToken at h
  cases hx : extractProjectId args.projectUrl with
  | error msg => rw [hx] at h; cases h
  | ok projectId =>
    rw [hx] at h
    dsimp only at h
    cases hr : (getProjectKeys cache projectId (upstream projectId)).result with
    | error e => rw [hr] at h; cases h
    | ok p =>
      rw [hr] at h
      injection h with h1
      subst h1
      constructor
      · exact le_trans (List.length_take_le _ _) (le_of_eq rfl)
      · rfl

/-- C4 witness: three matching rows in the table, `limit` 2; two rows come
back and `count` is 2. -/
theorem c4_witness :
    ((selectToken [] ⟨"https://abc.supabase.co", "posts", [], some 2⟩
        (fun _ => .ok [⟨"service_role", "SR"⟩])
        [[("id", .num 1)], [("id", .num 2)], [("id", .num 3)]]).1 =
      .ok ⟨[[("id", .num 1)], [("id", .num 2)]], 2⟩) ∧
    ([[("id", JsonLite.num 1)], [("id", JsonLite.num 2)]] : List Row).length ≤ 2 := by
  refine ⟨by decide, ?_⟩
  exact (c4_select_at_most_limit [] ⟨"https://abc.supabase.co", "posts", [], some 2⟩
    (fun _ => .ok [⟨"service_role", "SR"⟩])
    [[("id", .num 1)], [("id", .num 2)], [("id", .num 3)]]
    ⟨[[("id", .num 1)], [("id", .num 2)]], 2⟩ (by decide)).1

/-! Mutate tool (token variant src/index.ts lines 188-325, static-key variant
src/index.ts lines 741-793). -/

/-- Actions of the `mutate` tool. -/
inductive MutAction where
  | insert
  | update
  | delete
deriving DecidableEq, Repr

/-- One write request issued to the upstream data API. -/
inductive DbWrite where
  | insert (table : String) (data : JsonLite)
  | update (table : String) (data : JsonLite) (filters : List (String × JsonLite))
  | delete (table : String) (filters : List (String × JsonLite))
deriving DecidableEq, Repr

/-- One upstream network call a handler can issue: the key-issuance fetch of
`getProjectKeys`, or a data-API write. -/
inductive NetCall where
  | keyFetch (projectId : String)
  | dbWrite (w : DbWrite)
deriving DecidableEq, Repr

/-- Arguments of the token variant's `mutate` tool. -/
structure MutArgs where
  projectUrl : String
  action : MutAction
  table : String
  data : Option JsonLite
  whereF : List (String × JsonLite)
deriving DecidableEq, Repr

/-- Response `{ success: true, affected }` of a successful mutate. -/
structure MutateResponse where
  success : Bool
  affected : Nat
deriving DecidableEq, Repr

/-- Switch body shared verbatim by all mutate variants: validate presence of
`data` for insert/update, then issue exactly one write.  Returns the writes
issued (in order) and the outcome; `dbExec` is the upstream's answer to a
write (`error.message`, or the count).  A falsy `data` (absent, `null`, `0`,
`""`, `false`) fails the presence check, as `if (!data)` does. -/
def mutateCore (action : MutAction) (table : String) (data : Option JsonLite)
    (whereF : List (String × JsonLite)) (dbExec : DbWrite → Except String Nat) :
    List DbWrite × Except String Nat :=
  match action with
  | .insert =>
    if jsFalsy data then ([], .error "Data required for insert")
    else
      match data with
      | some d =>
        let w := DbWrite.insert table d
        ([w], dbExec w)
      | none => ([], .error "Data required for insert")
  | .update =>
    if jsFalsy data then ([], .error "Data required for update")
    else
      match data with
      | some d =>
        let w := DbWrite.update table d whereF
        ([w], dbExec w)
      | none => ([], .error "Data required for update")
  | .delete =>
    let w := DbWrite.delete table whereF
    ([w], dbExec w)

/-- Trace of one mutate call: the upstream calls issued, in order, and the
outcome (the error string coercion of the `Mutate failed:` wrapper is
collapsed to the thrown message). -/
structure MutateTrace where
  calls : List NetCall
  outcome : Except String MutateResponse
deriving DecidableEq, Repr

/-- Embedding of the token variant's mutate handler (src/index.ts lines
199-325): extract the project id, resolve keys — a network fetch on cache
miss — and only then run the action switch. -/
def mutateToken (cache : KeyCache) (args : MutArgs)
    (upstream : String → UpstreamResp) (dbExec : DbWrite → Except String Nat) :
    MutateTrace × KeyCache :=
  match extractProjectId args.projectUrl with
  | .error msg => (⟨[], .error ("Mutate failed: " ++ msg)⟩, cache)
  | .ok projectId =>
    let r := getProjectKeys cache projectId (upstream projectId)
    let fetchCalls := if r.fetched then [NetCall.keyFetch projectId] else []
    match r.result with
    | .error e => (⟨fetchCalls, .error ("Mutate failed: " ++ resolveErrorMessage e)⟩, r.cache)
    | .ok _ =>
      let core := mutateCore args.action args.table args.data args.whereF dbExec
      let calls := fetchCalls ++ core.1.map NetCall.dbWrite
      match core.2 with
      | .error msg => (⟨calls, .error ("Mutate failed: " ++ msg)⟩, r.cache)
      | .ok n => (⟨calls, .ok ⟨true, n⟩⟩, r.cache)

/-- Arguments of the static-key variants' `mutate` tool (no `projectUrl`). -/
structure MutArgsStatic where
  action : MutAction
  table : String
  data : Option JsonLite
  whereF : List (String × JsonLite)
deriving DecidableEq, Repr

/-- Embedding of the static-key variant's mutate handler (src/index.ts lines
751-793): the client is preconfigured, so the action switch runs with no key
resolution; the writes issued are the only upstream calls. -/
def mutateStatic (args : MutArgsStatic) (dbExec : DbWrite → Except String Nat) :
    List DbWrite × Except String MutateResponse :=
  let core := mutateCore args.action args.table args.data args.whereF dbExec
  match core.2 with
  | .error msg => (core.1, .error ("Mutate failed: " ++ msg))
  | .ok n => (core.1, .ok ⟨true, n⟩)

/-- C3 counterexample: in the token variant, `mutate` with `action="insert"`
and no `data`, on a cache miss, issues the key-issuance fetch — an upstream
network call — before failing with the missing-data error, contradicting the
claim that no upstream call of any kind is attempted before that failure. -/
theorem c3_counterexample :
    (mutateToken [] ⟨"https://abc.supabase.co", .insert, "todos", none, []⟩
        (fun _ => .ok [⟨"service_role", "SR"⟩]) (fun _ => .ok 0)).1.calls =
      [.keyFetch "abc"] ∧
    (mutateToken [] ⟨"https://abc.supabase.co", .insert, "todos", none, []⟩
        (fun _ => .ok [⟨"service_role", "SR"⟩]) (fun _ => .ok 0)).1.outcome =
      .error "Mutate failed: Data required for insert" ∧
    (mutateToken [] ⟨"https://abc.supabase.co", .insert, "todos", none, []⟩
        (fun _ => .ok [⟨"service_role", "SR"⟩]) (fun _ => .ok 0)).1.calls ≠ [] := by
  refine ⟨by decide, by decide, by decide⟩

/-- C3 amended: `mutate` with `action="insert"` and no `data` never issues a
data-API write in either variant, and fails with the missing-data error; in
the token variant the key-issuance fetch may still occur first (on a cache
miss), while the static-key variant attempts no upstream call at all. -/
theorem c3_insert_missing_data (cache : KeyCache) (args : MutArgs)
    (argsS : MutArgsStatic) (upstream : String → UpstreamResp)
    (dbExec : DbWrite → Except String Nat)
    (ha : args.action = .insert) (hd : args.data = none)
    (haS : argsS.action = .insert) (hdS : argsS.data = none) :
    (∀ w, NetCall.dbWrite w ∉ (mutateToken cache args upstream dbExec).1.calls) ∧
    (∀ p : ProjectKeyPair, ∀ projectId,
        extractProjectId args.projectUrl = .ok projectId →
        (getProjectKeys cache projectId (upstream projectId)).result = .ok p →
        (mutateToken cache args upstream dbExec).1.outcome =
          .error "Mutate failed: Data required for insert") ∧
    (mutateStatic argsS dbExec).1 = [] ∧
    (mutateStatic argsS dbExec).2 = .error "Mutate failed: Data required for insert" := by
  have hcore : mutateCore args.action args.table args.data args.whereF dbExec =
      ([], .error "Data required for insert") := by
    rw [ha, hd]
    rfl
  have hcoreS : mutateCore argsS.action argsS.table argsS.data argsS.whereF dbExec =
      ([], .error "Data required for insert") := by
    rw [haS, hdS]
    rfl
  refine ⟨?_, ?_, ?_, ?_⟩
  · intro w hw
    unfold mutateToken at hw
    cases hx : extractProjectId args.projectUrl with
    | error msg =>
      rw [hx] at hw
      cases hw
    | ok projectId =>
      rw [hx] at hw
      dsimp only at hw
      cases hr : (getProjectKeys cache projectId (upstream projectId)).result with
      | error e =>
        rw [hr] at hw
        dsimp only at hw
        cases hfe : (getProjectKeys cache projectId (upstream projectId)).fetched with
        | true => simp [hfe] at hw
        | false => simp [hfe] at hw
      | ok p =>
        rw [hr] at hw
        dsimp only at hw
        rw [hcore] at hw
        cases hfe : (getProjectKeys cache projectId (upstream projectId)).fetched with
        | true => simp [hfe] at hw
        | false => simp [hfe] at hw
  · intro p projectId hx hr
    unfold mutateToken
    rw [hx]
    dsimp only
    rw [hr]
    dsimp only
    rw [hcore]
    rfl
  · unfold mutateStatic
    rw [hcoreS]
  · unfold mutateStatic
    rw [hcoreS]
    rfl

/-- C3 witness: the amended theorem at a concrete insert-without-data call
with a valid URL, an empty cache and a successful key fetch. -/
theorem c3_witness :
    (mutateStatic ⟨.insert, "todos", none, []⟩ (fun _ => .ok 0)).1 = [] ∧
    (mutateToken [] ⟨"https://abc.supabase.co", .insert, "todos", none, []⟩
        (fun _ => .ok [⟨"service_role", "SR"⟩]) (fun _ => .ok 0)).1.outcome =
      .error "Mutate failed: Data required for insert" := by
  have h := c3_insert_missing_data []
    ⟨"https://abc.supabase.co", .insert, "todos", none, []⟩
    ⟨.insert, "todos", none, []⟩
    (fun _ => .ok [⟨"service_role", "SR"⟩]) (fun _ => .ok 0)
    rfl rfl rfl rfl
  refine ⟨h.2.2.1, ?_⟩
  exact h.2.1 ⟨"SR", none⟩ "abc" (by decide) (by decide)

/-! Auth tool, list case (token variant src/index.ts lines 553-587; the
static variants' list case is the same `slice(0, 100).map(...)`). -/

/-- Upstream user record as `auth.admin.listUsers()` returns it; it carries
more fields than the handler forwards. -/
structure UpUser where
  id : String
  email : String
  created_at : String
  phone : String
  role : String
  last_sign_in_at : String
deriving DecidableEq, Repr

/-- Object literal `{ id: u.id, email: u.email, created: u.created_at }` the
list case constructs per user — exactly these three fields and no others. -/
structure UserSummary where
  id : String
  email : String
  created : String
deriving DecidableEq, Repr

/-- Embedding of `users.slice(0, 100).map(u => ({id, email, created}))`
(src/index.ts lines 572-576). -/
def authListUsers (users : List UpUser) : List UserSummary :=
  (users.take 100).map (fun u => ⟨u.id, u.email, u.created_at⟩)

/-- C9: `auth` with `action="list"` returns at most 100 entries, and every
entry is the three-field `{id, email, created}` projection of some upstream
user (the `UserSummary` type has exactly those three fields). -/
theorem c9_auth_list_truncated_and_minimal (users : List UpUser) :
    (authListUsers users).length ≤ 100 ∧
    ∀ e ∈ authListUsers users, ∃ u, u ∈ users ∧
      e = ⟨u.id, u.email, u.created_at⟩ := by
  constructor
  · rw [authListUsers, List.length_map]
    exact List.length_take_le _ _
  · intro e he
    rw [authListUsers] at he
    obtain ⟨u, hu, hue⟩ := List.mem_map.mp he
    exact ⟨u, List.take_subset 100 users hu, hue.symm⟩

/-- C9 witness: one concrete upstream user; the single returned entry is its
three-field projection. -/
theorem c9_witness :
    (authListUsers [⟨"u1", "a@b.c", "2024-01-01", "123", "admin", "2024-02-02"⟩]).length ≤ 100 ∧
    ∃ u, u ∈ [(⟨"u1", "a@b.c", "2024-01-01", "123", "admin", "2024-02-02"⟩ : UpUser)] ∧
      (⟨"u1", "a@b.c", "2024-01-01"⟩ : UserSummary) = ⟨u.id, u.email, u.created_at⟩ := by
  have h := c9_auth_list_truncated_and_minimal
    [⟨"u1", "a@b.c", "2024-01-01", "123", "admin", "2024-02-02"⟩]
  exact ⟨h.1, h.2 ⟨"u1", "a@b.c", "2024-01-01"⟩ (by decide)⟩

/-! SQL query tools: the `query` tool of the SQL static variant
(unnamed/part_001 lines 156-191) and the `excute_query` tool of the
management-API variant (unnamed/part_000 lines 130-173).  Result rows are kept
abstract in a type parameter. -/

/-- Successful JSON result of a SQL call, as `Array.isArray` distinguishes
it: an array of rows, or any non-array value. -/
inductive SqlValue (α : Type) where
  | arr (rows : List α)
  | nonArray (v : α)
deriving DecidableEq, Repr

/-- Result returned by the `query` tool: the upstream value as-is, or the
reshaped `{ rows, total }` object. -/
inductive ShapedValue (α : Type) where
  | raw (v : SqlValue α)
  | shaped (rows : List α) (total : Nat)
deriving DecidableEq, Repr

/-- Reshaping in the fallback path of the `query` tool (unnamed/part_001
lines 178-181): an array of more than 100 rows becomes
`{ rows: first 100, total: length }`; everything else is returned as-is. -/
def limitRows {α : Type} (result : SqlValue α) : ShapedValue α :=
  match result with
  | .arr rows =>
    if 100 < rows.length then .shaped (rows.take 100) rows.length
    else .raw (.arr rows)
  | v => .raw v

/-- Embedding of the `query` handler (unnamed/part_001 lines 162-190): on RPC
success the data is returned unshaped; on RPC error the fallback result is
reshaped by `limitRows`; a fallback error is wrapped. -/
def queryTool {α : Type} (rpcRes : Except String (SqlValue α))
    (fallbackRes : Except String (SqlValue α)) : Except String (ShapedValue α) :=
  match rpcRes with
  | .ok d => .ok (.raw d)
  | .error _ =>
    match fallbackRes with
    | .ok result => .ok (limitRows result)
    | .error e => .error ("Query failed: " ++ e)

/-- Upstream response of the management-API `database/query` endpoint as the
`excute_query` handler observes it. -/
inductive QueryFetch (α : Type) where
  | httpError (status : Nat) (statusText : String) (body : String)
  | ok (v : SqlValue α)
deriving DecidableEq, Repr

/-- Text content returned by `excute_query`: the failure message, or the
response body serialized — with no reshaping of any kind. -/
inductive QueryText (α : Type) where
  | failed (status : Nat) (statusText : String) (body : String)
  | result (v : SqlValue α)
deriving DecidableEq, Repr

/-- Embedding of the `excute_query` handler (unnamed/part_000 lines 140-172):
a non-ok response yields the failure text, a successful response is returned
serialized as-is. -/
def excute_query {α : Type} (resp : QueryFetch α) : QueryText α :=
  match resp with
  | .httpError status statusText body => .failed status statusText body
  | .ok v => .result v

/-- C6 counterexample: a successful 101-row array is returned whole, not
reshaped, both by the cited `excute_query` handler and by the `query` tool's
RPC-success path; reshaping happens only on the `query` tool's fallback
path. -/
theorem c6_counterexample :
    excute_query (.ok (SqlValue.arr (List.range 101))) =
      .result (SqlValue.arr (List.range 101)) ∧
    queryTool (.ok (SqlValue.arr (List.range 101))) (.error "no rpc") =
      .ok (.raw (.arr (List.range 101))) ∧
    queryTool (.ok (SqlValue.arr (List.range 101))) (.error "no rpc") ≠
      .ok (limitRows (SqlValue.arr (List.range 101))) := by
  refine ⟨rfl, rfl, by decide⟩

/-- C6 amended: only the fallback path of the SQL variant's `query` tool
reshapes successful array results of more than 100 rows to
`{rows: first 100, total: N}`; the RPC-success path and the `excute_query`
tool return results unshaped. -/
theorem c6_fallback_reshapes {α : Type} :
    (∀ (e : String) (rows : List α), 100 < rows.length →
        queryTool (.error e) (.ok (.arr rows)) =
          .ok (.shaped (rows.take 100) rows.length)) ∧
    (∀ (e : String) (rows : List α), rows.length ≤ 100 →
        queryTool (.error e) (.ok (.arr rows)) = .ok (.raw (.arr rows))) ∧
    (∀ (d : SqlValue α) (fallbackRes : Except String (SqlValue α)),
        queryTool (.ok d) fallbackRes = .ok (.raw d)) ∧
    (∀ v : SqlValue α, excute_query (.ok v) = .result v) := by
  refine ⟨?_, ?_, ?_, ?_⟩
  · intro e rows hlen
    simp [queryTool, limitRows, hlen]
  · intro e rows hlen
    simp [queryTool, limitRows, Nat.not_lt.mpr hlen]
  · intro d fallbackRes
    rfl
  · intro v
    rfl

/-- C6 witness: the fallback path at a concrete 101-row array reshapes to the
first 100 rows with total 101. -/
theorem c6_witness :
    queryTool (.error "rpc missing") (.ok (.arr (List.range 101))) =
      .ok (.shaped (List.range 100) 101) := by
  have h := (c6_fallback_reshapes (α := Nat)).1 "rpc missing" (List.range 101) (by decide)
  rw [h]
  decide

/-! Server construction (C8): which tools each `createServer` variant
registers, as a function of the configuration it receives.  Absent fields are
`none`; JS falsiness of a present string is emptiness. -/

/-- JS falsiness of an optional string configuration field. -/
def isFalsyStr : Option String → Bool
  | none => true
  | some s => s.data.isEmpty

/-- Embedding of the token variant's `createServer` (src/index.ts lines
64-88): a falsy `accessToken` or one not starting with `sbp_` returns the
server before any tool is registered; otherwise four tools are registered. -/
def tokenCreateServerTools (accessToken : Option String) : List String :=
  if isFalsyStr accessToken then []
  else
    match accessToken with
    | some t =>
      if "sbp_".data.isPrefixOf t.data then ["select", "mutate", "storage", "auth"]
      else []
    | none => []

/-- Embedding of the static-key variants' `createServer` in src/index.ts
(lines 685-696 and 936-947): a falsy `supabaseUrl` or `supabaseKey` returns
the server with no tools; otherwise four tools are registered. -/
def staticCreateServerTools (supabaseUrl supabaseKey : Option String) : List String :=
  if isFalsyStr supabaseUrl || isFalsyStr supabaseKey then []
  else ["select", "mutate", "storage", "auth"]

/-- Argument check of the supabase-js `SupabaseClient` constructor, which
`createClient` runs eagerly: a falsy `supabaseUrl` throws
`supabaseUrl is required.`, then a falsy `supabaseKey` throws
`supabaseKey is required.`.  Behavior of the external library, embedded here
because unnamed/part_001 lines 151-153 invoke `createClient` before any
`registerTool` call, so this error path decides what a misconfigured
`createServer` does. -/
def createClientCheck (supabaseUrl supabaseKey : Option String) : Except String Unit :=
  if isFalsyStr supabaseUrl then .error "supabaseUrl is required."
  else if isFalsyStr supabaseKey then .error "supabaseKey is required."
  else .ok ()

/-- Embedding of the SQL static variant's `createServer` (unnamed/part_001
lines 144-153 onward): it has no configuration guard of its own —
`createClient` runs first and throws on a falsy mandatory field, a hard
startup failure before any tool registration; otherwise the five tools are
registered. -/
def sqlStaticCreateServerTools (supabaseUrl supabaseKey : Option String) :
    Except String (List String) :=
  match createClientCheck supabaseUrl supabaseKey with
  | .error e => .error e
  | .ok _ => .ok ["query", "select", "mutate", "storage", "auth"]

/-- C8 counterexample: with both mandatory configuration fields absent, the
SQL static variant's `createServer` throws `supabaseUrl is required.` at
client construction — a hard startup failure, not a started server with zero
tools registered. -/
theorem c8_counterexample :
    sqlStaticCreateServerTools none none = .error "supabaseUrl is required." ∧
    sqlStaticCreateServerTools none none ≠ .ok [] := by
  refine ⟨rfl, by decide⟩

/-- C8 amended: the token variant and the static-key variants of
src/index.ts degrade to a server with zero tools on a missing/empty mandatory
field or an access token without the `sbp_` prefix; the SQL static variant of
unnamed/part_001 has no such degraded mode — a falsy mandatory field makes
`createClient` throw at startup before any tool registration, and only a
configuration with both fields present registers its five tools. -/
theorem c8_degraded_mode_by_variant :
    tokenCreateServerTools none = [] ∧
    tokenCreateServerTools (some "") = [] ∧
    (∀ t : String, ("sbp_".data.isPrefixOf t.data) = false →
        tokenCreateServerTools (some t) = []) ∧
    (∀ url key : Option String, isFalsyStr url = true →
        staticCreateServerTools url key = []) ∧
    (∀ url key : Option String, isFalsyStr key = true →
        staticCreateServerTools url key = []) ∧
    (∀ url key : Option String, isFalsyStr url = true →
        sqlStaticCreateServerTools url key = .error "supabaseUrl is required.") ∧
    (∀ url key : Option String, isFalsyStr url = false → isFalsyStr key = true →
        sqlStaticCreateServerTools url key = .error "supabaseKey is required.") ∧
    (∀ url key : Option String, isFalsyStr url = false → isFalsyStr key = false →
        sqlStaticCreateServerTools url key =
          .ok ["query", "select", "mutate", "storage", "auth"]) := by
  refine ⟨rfl, rfl, ?_, ?_, ?_, ?_, ?_, ?_⟩
  · intro t ht
    unfold tokenCreateServerTools
    cases hf : isFalsyStr (some t) with
    | true => simp
    | false => simp [ht]
  · intro url key hurl
    unfold staticCreateServerTools
    simp [hurl]
  · intro url key hkey
    unfold staticCreateServerTools
    simp [hkey]
  · intro url key hurl
    unfold sqlStaticCreateServerTools createClientCheck
    simp [hurl]
  · intro url key hurl hkey
    unfold sqlStaticCreateServerTools createClientCheck
    simp [hurl, hkey]
  · intro url key hurl hkey
    unfold sqlStaticCreateServerTools createClientCheck
    simp [hurl, hkey]

/-- C8 witness: a malformed token and a missing `supabaseKey` yield zero
registered tools in the checking variants; in the SQL static variant a
missing `supabaseUrl` throws at startup while a complete configuration
registers the five tools. -/
theorem c8_witness :
    tokenCreateServerTools (some "badtoken") = [] ∧
    staticCreateServerTools (some "https://abc.supabase.co") none = [] ∧
    sqlStaticCreateServerTools none (some "KEY") = .error "supabaseUrl is required." ∧
    sqlStaticCreateServerTools (some "https://abc.supabase.co") (some "KEY") =
      .ok ["query", "select", "mutate", "storage", "auth"] := by
  refine ⟨?_, ?_, ?_, ?_⟩
  · exact c8_degraded_mode_by_variant.2.2.1 "badtoken" (by decide)
  · exact c8_degraded_mode_by_variant.2.2.2.2.1 (some "https://abc.supabase.co") none rfl
  · exact c8_degraded_mode_by_variant.2.2.2.2.2.1 none (some "KEY") rfl
  · exact c8_degraded_mode_by_variant.2.2.2.2.2.2.2 (some "https://abc.supabase.co")
      (some "KEY") (by decide) (by decide)

/-! Access-token exposure (C10): the `check_access_key` tool of
unnamed/part_001 (lines 37-49) and the `get_access_key` tool of
unnamed/part_000 (lines 22-44) interpolate the configured personal access
token into the text of their responses.  Texts are `List Char`. -/

/-- Text `Your access key is ${config.supabase_Access_Token}` returned by
`check_access_key`. -/
def check_access_key_text (token : List Char) : List Char :=
  "Your access key is ".data ++ token

/-- JSON.stringify of a plain string: the characters between quotes (escaping
inside API keys is not modelled; keys contain no characters needing it). -/
def jsonStringQuote (s : String) : List Char :=
  '"' :: (s.data ++ ['"'])

/-- Text returned by `get_access_key` (unnamed/part_000 line 41): the token,
then `data[0].api_key` as the anon key and `data[1].api_key` as the service
role key; fewer than two entries crash the handler, modelled as `none`. -/
def get_access_key_text (token : List Char) (data : List ApiKeyEntry) :
    Option (List Char) :=
  match data with
  | k0 :: k1 :: _ =>
    some ("personal access Token : ".data ++ token ++
      "\nproject annoKey : ".data ++ jsonStringQuote k0.api_key ++
      "\nproject service role key: ".data ++ jsonStringQuote k1.api_key)
  | _ => none

/-- C10: both token-printing tools include the configured access token
verbatim in their successful response text, and two configurations differing
only in the token produce different outputs — the credential flows to the
public tool surface. -/
theorem c10_token_flows_to_output :
    (∀ token : List Char, ∃ pre suf, check_access_key_text token = pre ++ token ++ suf) ∧
    (∀ t1 t2 : List Char, t1 ≠ t2 →
        check_access_key_text t1 ≠ check_access_key_text t2) ∧
    (∀ (token : List Char) (k0 k1 : ApiKeyEntry) (rest : List ApiKeyEntry),
        ∃ pre suf, get_access_key_text token (k0 :: k1 :: rest) = some (pre ++ token ++ suf)) ∧
    (∀ (t1 t2 : List Char) (k0 k1 : ApiKeyEntry) (rest : List ApiKeyEntry), t1 ≠ t2 →
        get_access_key_text t1 (k0 :: k1 :: rest) ≠ get_access_key_text t2 (k0 :: k1 :: rest)) := by
  refine ⟨?_, ?_, ?_, ?_⟩
  · intro token
    exact ⟨"Your access key is ".data, [], by simp [check_access_key_text]⟩
  · intro t1 t2 hne h
    exact hne (List.append_cancel_left h)
  · intro token k0 k1 rest
    refine ⟨"personal access Token : ".data,
      "\nproject annoKey : ".data ++ jsonStringQuote k0.api_key ++
        ("\nproject service role key: ".data ++ jsonStringQuote k1.api_key), ?_⟩
    simp [get_access_key_text, List.append_assoc]
  · intro t1 t2 k0 k1 rest hne h
    apply hne
    simp only [get_access_key_text, Option.some.injEq] at h
    have h1 := List.append_cancel_right h
    have h2 := List.append_cancel_right h1
    have h3 := List.append_cancel_right h2
    have h4 := List.append_cancel_right h3
    exact List.append_cancel_left h4

/-- C10 witness: two concrete configurations differing only in the token give
different texts from both tools, and the token appears verbatim. -/
theorem c10_witness :
    (∃ pre suf, check_access_key_text "sbp_one".data = pre ++ "sbp_one".data ++ suf) ∧
    check_access_key_text "sbp_one".data ≠ check_access_key_text "sbp_two".data ∧
    (∃ pre suf, get_access_key_text "sbp_one".data [⟨"anon", "AN"⟩, ⟨"service_role", "SR"⟩] =
        some (pre ++ "sbp_one".data ++ suf)) ∧
    get_access_key_text "sbp_one".data [⟨"anon", "AN"⟩, ⟨"service_role", "SR"⟩] ≠
      get_access_key_text "sbp_two".data [⟨"anon", "AN"⟩, ⟨"service_role", "SR"⟩] := by
  refine ⟨c10_token_flows_to_output.1 "sbp_one".data,
    c10_token_flows_to_output.2.1 "sbp_one".data "sbp_two".data (by decide),
    c10_token_flows_to_output.2.2.1 "sbp_one".data ⟨"anon", "AN"⟩ ⟨"service_role", "SR"⟩ [],
    c10_token_flows_to_output.2.2.2 "sbp_one".data "sbp_two".data
      ⟨"anon", "AN"⟩ ⟨"service_role", "SR"⟩ [] (by decide)⟩

end SupabaseMcpLite
